import Mathlib

/-!
Shallow embedding of `bed` (src/main.rs), a line-oriented editor: the
command parser `parse_command`, the REPL state (`BedState`) and the
execution of each `BedCommand` by the loop in `main`.  The `crop::Rope`
text storage is an external dependency of the repository; following the
specification (§3, §4.3) it is modelled as the ordered list of the
document's lines, each line stored without its trailing newline.
Machine integers (`usize`) are modelled as `Nat` together with the
explicit bound `USIZE_MAX`; operations that can panic in Rust return
`Option`, with `Option.none` standing for a panic.
-/

namespace Bed

/-- Rust `char::is_whitespace`, i.e. the Unicode `White_Space` property
(this is also what `\s` matches in the `regex` crate's default Unicode
mode). -/
def isRustWhitespace (c : Char) : Bool :=
  c.toNat = 0x09 || c.toNat = 0x0A || c.toNat = 0x0B || c.toNat = 0x0C ||
  c.toNat = 0x0D || c.toNat = 0x20 || c.toNat = 0x85 || c.toNat = 0xA0 ||
  c.toNat = 0x1680 || (0x2000 ≤ c.toNat && c.toNat ≤ 0x200A) ||
  c.toNat = 0x2028 || c.toNat = 0x2029 || c.toNat = 0x202F ||
  c.toNat = 0x205F || c.toNat = 0x3000

/-- ASCII decimal digit: what `str::parse::<usize>` accepts, and the model
of `\d` for ASCII input (the `regex` crate's `\d` also matches non-ASCII
Unicode digits, on which the original code then panics in `parse`;
theorems quantifying over all inputs therefore restrict to ASCII). -/
def isAsciiDigit (c : Char) : Bool :=
  48 ≤ c.toNat && c.toNat ≤ 57

/-- Rust `str::trim`: remove whitespace from both ends. -/
def rustTrim (s : List Char) : List Char :=
  ((s.dropWhile isRustWhitespace).reverse.dropWhile isRustWhitespace).reverse

/-- Maximum value of `usize` on the reference 64-bit platform. -/
def USIZE_MAX : Nat := 2 ^ 64 - 1

/-- Numeric value of a list of ASCII digits. -/
def digitsVal (ds : List Char) : Nat :=
  ds.foldl (fun a c => 10 * a + (c.toNat - 48)) 0

/-- Rust `str::parse::<usize>` on a non-empty all-digit string: succeeds
exactly when the value fits in `usize`; `Option.none` models the `Err`
that the call sites immediately `unwrap` (a panic). -/
def parseUsize (ds : List Char) : Option Nat :=
  if digitsVal ds ≤ USIZE_MAX then some (digitsVal ds) else Option.none

/-- The `Range` struct of main.rs (the second field is named `end` in the
source; `end` is a Lean keyword, so it is called `stop` here). -/
structure Range where
  start : Nat
  stop : Nat
  deriving DecidableEq, Repr

/-- The `BedCommand` enum of main.rs.  Its variants are exactly `Quit`,
`Print`, `NPrint`, `Move`, `Change` and `None`: the enum has no write
variant. -/
inductive BedCommand where
  | quit
  | print (range : Range)
  | nprint (range : Range)
  | move (line : Nat)
  | change
  | none
  deriving DecidableEq, Repr

/-- Matching of `quit_re = ^(q|quit)$` on the trimmed input: an anchored
alternation of two literals holds exactly on those two strings. -/
def quitMatch (s : List Char) : Bool :=
  s == "q".data || s == "quit".data

/-- Matching of `change_re = ^c\s*$`: a `c` followed by whitespace only. -/
def changeMatch (s : List Char) : Bool :=
  match s with
  | 'c' :: rest => rest.all isRustWhitespace
  | _ => false

/-- Matching of `move_re = ^(\d+)$`: a non-empty string of digits (group 1
is the whole string). -/
def moveMatch (s : List Char) : Bool :=
  !s.isEmpty && s.all isAsciiDigit

/-- One optional comma (`,?`), consumed greedily. -/
def dropComma (s : List Char) : List Char :=
  match s with
  | ',' :: rest => rest
  | _ => s

/-- One optional whitespace character (`(\s)?`), consumed greedily. -/
def dropWs (s : List Char) : List Char :=
  match s with
  | c :: rest => if isRustWhitespace c then rest else c :: rest
  | [] => []

/-- Matching of `print_re = ^(\d+)?,?(\s)?(\d+)?(\s)?[pn]$` with the
regex crate's leftmost-first (greedy) capture semantics, returning the
two numeric capture groups (groups 1 and 3) on success.  Greedy
left-to-right consumption is equivalent to the backtracking search here:
digits given back by a group could only ever be re-consumed by the later
digit group, reaching the same position. -/
def printCaptures (s : List Char) : Option (Option (List Char) × Option (List Char)) :=
  let d1 := s.takeWhile isAsciiDigit
  let s1 := s.dropWhile isAsciiDigit
  let s2 := dropComma s1
  let s3 := dropWs s2
  let d3 := s3.takeWhile isAsciiDigit
  let s4 := s3.dropWhile isAsciiDigit
  let s5 := dropWs s4
  if s5 = ['p'] ∨ s5 = ['n'] then
    some ((if d1 = [] then Option.none else some d1),
          (if d3 = [] then Option.none else some d3))
  else Option.none

/-- The `captures.get(i).map(|m| m.as_str().parse().unwrap())` idiom:
an absent capture stays `None`; a present capture is parsed, and a parse
failure (overflow) panics — modelled by the outer `Option.none`. -/
def captureNum : Option (List Char) → Option (Option Nat)
  | Option.none => some Option.none
  | some ds => (parseUsize ds).map some

/-- Range resolution of the print branch of `parse_command`
(main.rs lines 65-80): with a comma, missing bounds default to `1` and
`max_line`; without a comma, both bounds default to `current_line` and
the second capture is ignored. -/
def resolveRange (hasComma : Bool) (start e : Option Nat)
    (current_line max_line : Nat) : Range :=
  match hasComma with
  | true => { start := start.getD 1, stop := e.getD max_line }
  | false => { start := start.getD current_line, stop := start.getD current_line }

/-- The print branch of `parse_command` (main.rs lines 58-89), taking
the two captures of the matched print grammar: parse the captured
numbers (`unwrap` of an overflow panics), resolve the range, then pick
the variant from the final letter. -/
def printBranch (s : List Char) (g1 g3 : Option (List Char))
    (current_line max_line : Nat) : Option BedCommand := do
  let start ← captureNum g1
  let e ← captureNum g3
  let range := resolveRange (s.contains ',') start e current_line max_line
  if s.getLast? = some 'p' then
    pure (BedCommand.print range)
  else if s.getLast? = some 'n' then
    pure (BedCommand.nprint range)
  else
    pure BedCommand.none

/-- Body of `parse_command` after the shadowing `let input = input.trim()`
of main.rs line 47: `s` is the trimmed input. -/
def parseTrimmed (s : List Char) (current_line : Nat) (max_line : Nat) :
    Option BedCommand :=
  if quitMatch s then
    some BedCommand.quit
  else
    match printCaptures s with
    | some (g1, g3) => printBranch s g1 g3 current_line max_line
    | Option.none =>
      if changeMatch s then
        some BedCommand.change
      else if moveMatch s then
        (parseUsize s).map (fun line => BedCommand.move line)
      else
        some BedCommand.none

/-- The `parse_command` function of main.rs (lines 46-99).  The result is
`Option BedCommand`: `Option.none` models a panic (the `unwrap` of a
numeric capture whose value exceeds `usize`), `some c` a normal return. -/
def parse_command (input : String) (current_line : Nat) (max_line : Nat) :
    Option BedCommand :=
  parseTrimmed (rustTrim input.data) current_line max_line

/-- The numeric literals that `parse_command` passes to
`str::parse::<usize>().unwrap()` on trimmed input `s`: the present
captures of the print grammar, or the whole input in the move branch. -/
def attemptedNumerals (s : List Char) : List (List Char) :=
  match printCaptures s with
  | some (g1, g3) => g1.toList ++ g3.toList
  | Option.none => if moveMatch s then [s] else []

/-- Whether some branch of the parser's grammar matches the trimmed
input (otherwise the fallback produces `Command::None`). -/
def recognizes (s : List Char) : Bool :=
  quitMatch s || (printCaptures s).isSome || changeMatch s || moveMatch s

/-- Helper for `splitLines`: accumulates the current line (reversed). -/
def splitLinesAux : List Char → List Char → List (List Char)
  | [], acc => [acc.reverse]
  | c :: rest, acc =>
    if c = '\n' then
      match rest with
      | [] => [acc.reverse]
      | _ => acc.reverse :: splitLinesAux rest []
    else
      splitLinesAux rest (c :: acc)

/-- Modelled from the spec: the lines of a text, as produced by
`crop::Rope::from` (the Rope crate is an external dependency, the spec
§3 describes the buffer as an ordered sequence of newline-delimited
lines, a line not including its trailing newline).  A trailing newline
does not open a further empty line; the empty text has no lines. -/
def splitLines : List Char → List (List Char)
  | [] => []
  | s => splitLinesAux s []

/-- Modelled from the spec: `Rope::from(text)` as a list of lines. -/
def linesOf (s : String) : List String :=
  (splitLines s.data).map String.mk

/-- The `BedState` struct of main.rs: the buffer content (a `Rope`,
modelled as its list of lines, whose length models `line_len()`) and the
1-based current line. -/
structure BedState where
  content : List String
  current_line : Nat
  deriving DecidableEq, Repr

/-- Editor state built at startup (main.rs lines 120-124): content from
the file's text, `current_line` set to `content.line_len()`. -/
def initState (file : String) : BedState :=
  { content := linesOf file, current_line := (linesOf file).length }

/-- The body of `for line in (range.start - 1)..range.end` of the Print
branch, emitting lines by index: `i` is the next 0-based index, `n` the
number of iterations left.  `content[i]?` models `Rope::line(i)`, which
panics when `i` is out of bounds. -/
def printLoop (content : List String) : Nat → Nat → Option (List String)
  | _, 0 => some []
  | i, n + 1 => do
    let line ← content[i]?
    let rest ← printLoop content (i + 1) n
    pure (line :: rest)

/-- The Print branch of `main` (lines 198-206): iterate from
`range.start - 1` (exclusive of `range.end`).  On `range.start = 0` the
`usize` subtraction underflows — a panic in a debug build — modelled by
`Option.none`.  Styling escapes are not modelled (the highlighting filter
is out of scope per the spec, passing the raw line through). -/
def printRange (content : List String) (r : Range) : Option (List String) :=
  if r.start = 0 then Option.none
  else printLoop content (r.start - 1) (r.stop - (r.start - 1))

/-- Decimal digit count of `n`, i.e. `n.to_string().len()` in main.rs
line 209. -/
def digitWidth (n : Nat) : Nat :=
  (Nat.toDigits 10 n).length

/-- Right-aligned decimal rendering of `n` in a field of `width` spaces:
Rust's `format!("{:width$}", n)`. -/
def padNum (n width : Nat) : String :=
  String.mk (List.replicate (width - (Nat.toDigits 10 n).length) ' ' ++
    Nat.toDigits 10 n)

/-- The loop body of the NPrint branch: each emitted line is the padded
1-based line number, the separator `" │ "`, then the line text. -/
def nprintLoop (content : List String) (width : Nat) : Nat → Nat → Option (List String)
  | _, 0 => some []
  | i, n + 1 => do
    let line ← content[i]?
    let rest ← nprintLoop content width (i + 1) n
    pure ((padNum (i + 1) width ++ " │ " ++ line) :: rest)

/-- The NPrint branch of `main` (lines 207-220): width recomputed from
`content.line_len()` at this invocation, then the same iteration as
Print with a number gutter. -/
def nprintRange (content : List String) (r : Range) : Option (List String) :=
  let width := digitWidth content.length
  if r.start = 0 then Option.none
  else nprintLoop content width (r.start - 1) (r.stop - (r.start - 1))

/-- One dispatch of the `match command` in `main` (lines 190-224).
Returns the new state, the lines written to stdout, the remaining stdin
lines (each stdin element is one `read_line` result, trailing newline
included) and whether the loop `break`s; `Option.none` models a panic.
The Change branch (lines 193-197) reads ONE further input line and
replaces the whole buffer with it. -/
def execCommand (st : BedState) (cmd : BedCommand) (stdin : List String) :
    Option (BedState × List String × List String × Bool) :=
  match cmd with
  | BedCommand.none => some (st, [], stdin, false)
  | BedCommand.quit => some (st, [], stdin, true)
  | BedCommand.change =>
    let new_content := stdin.headD ""
    some ({ content := linesOf new_content, current_line := st.current_line },
      [], stdin.tail, false)
  | BedCommand.print r =>
    (printRange st.content r).map (fun out => (st, out, stdin, false))
  | BedCommand.nprint r =>
    (nprintRange st.content r).map (fun out => (st, out, stdin, false))
  | BedCommand.move line =>
    some ({ content := st.content, current_line := line }, [], stdin, false)

/-- One iteration of the REPL loop in `main` (lines 130-225): parse the
command line against the current state, then execute it. -/
def replStep (st : BedState) (input : String) (stdin : List String) :
    Option (BedState × List String × List String × Bool) := do
  let cmd ← parse_command input st.current_line st.content.length
  execCommand st cmd stdin

theorem splitLinesAux_ne_nil : ∀ (s acc : List Char), splitLinesAux s acc ≠ [] := by
  intro s
  induction s with
  | nil => intro acc; simp [splitLinesAux]
  | cons c rest ih =>
    intro acc
    by_cases hc : c = '\n'
    · subst hc
      cases rest with
      | nil => simp [splitLinesAux]
      | cons d tl => simp [splitLinesAux]
    · simp only [splitLinesAux, if_neg hc]
      exact ih _

/-- C1: the spec's change command reads input lines until a lone `.` and
replaces only the current line, so that on buffer `a b c d e` with
current line 3 and input `x\ny\n.\n` the buffer becomes
`a b x y e`.  The code instead reads exactly ONE input line and replaces
the ENTIRE buffer with it: the buffer becomes the single line `x` and
the lines `y\n` and `.\n` are left on stdin for the command loop. -/
theorem c1_change_replaces_whole_buffer :
    replStep { content := ["a", "b", "c", "d", "e"], current_line := 3 } "c\n"
        ["x\n", "y\n", ".\n"]
      = some ({ content := ["x"], current_line := 3 }, [], ["y\n", ".\n"], false) ∧
    ({ content := ["x"], current_line := 3 } : BedState) ≠
      { content := ["a", "b", "x", "y", "e"], current_line := 3 } := by
  constructor
  · rfl
  · decide

/-- C2 counterexample: the input `w` is not a write command; it parses to
`BedCommand.none` (unrecognized), and one REPL step on it leaves the
state untouched and produces no output at all. -/
theorem c2_w_parses_to_none :
    parse_command "w" 3 5 = some BedCommand.none ∧
    replStep { content := ["a", "b"], current_line := 2 } "w\n" []
      = some ({ content := ["a", "b"], current_line := 2 }, [], [], false) := by
  constructor
  · rfl
  · rfl

/-- C2 (amended): the command language has no write command.  Any input
that trims to `w` is unrecognized, yielding `Command::None`, whose
execution changes nothing; and the `BedCommand` variant set consists of
exactly Quit, Print, NPrint, Move, Change and None — no Write. -/
theorem c2_no_write_command (input : String) (cur mx : Nat) (st : BedState)
    (stdin : List String) (h : rustTrim input.data = ['w']) :
    parse_command input cur mx = some BedCommand.none ∧
    execCommand st BedCommand.none stdin = some (st, [], stdin, false) ∧
    ∀ c : BedCommand, c = BedCommand.quit ∨ (∃ rg, c = BedCommand.print rg) ∨
      (∃ rg, c = BedCommand.nprint rg) ∨ (∃ n, c = BedCommand.move n) ∨
      c = BedCommand.change ∨ c = BedCommand.none := by
  refine ⟨?_, rfl, ?_⟩
  · unfold parse_command
    rw [h]
    rfl
  · intro c
    cases c <;> simp

theorem c2_no_write_command_witness :
    parse_command "w \n" 3 5 = some BedCommand.none ∧
    execCommand { content := ["a"], current_line := 1 } BedCommand.none []
      = some ({ content := ["a"], current_line := 1 }, [], [], false) ∧
    ∀ c : BedCommand, c = BedCommand.quit ∨ (∃ rg, c = BedCommand.print rg) ∨
      (∃ rg, c = BedCommand.nprint rg) ∨ (∃ n, c = BedCommand.move n) ∨
      c = BedCommand.change ∨ c = BedCommand.none :=
  c2_no_write_command "w \n" 3 5 { content := ["a"], current_line := 1 } []
    (by decide)

/-- C4: address defaulting.  With a comma, a missing first number
defaults the start to 1 and a missing second number defaults the end to
the buffer's line count; without a comma, a missing number defaults to
the current line and the end always equals the start.  Concretely, on a
10-line buffer with current line 4: `,p` resolves to (1,10), `p` to
(4,4), `3,p` to (3,10) and `,7p` to (1,7). -/
theorem c4_address_defaulting :
    (∀ (g3 : Option Nat) (cur mx : Nat),
      (resolveRange true Option.none g3 cur mx).start = 1) ∧
    (∀ (g1 : Option Nat) (cur mx : Nat),
      (resolveRange true g1 Option.none cur mx).stop = mx) ∧
    (∀ (g3 : Option Nat) (cur mx : Nat),
      resolveRange false Option.none g3 cur mx = { start := cur, stop := cur }) ∧
    (∀ (n : Nat) (g3 : Option Nat) (cur mx : Nat),
      resolveRange false (some n) g3 cur mx = { start := n, stop := n }) ∧
    parse_command ",p" 4 10 = some (BedCommand.print { start := 1, stop := 10 }) ∧
    parse_command "p" 4 10 = some (BedCommand.print { start := 4, stop := 4 }) ∧
    parse_command "3,p" 4 10 = some (BedCommand.print { start := 3, stop := 10 }) ∧
    parse_command ",7p" 4 10 = some (BedCommand.print { start := 1, stop := 7 }) := by
  refine ⟨fun g3 cur mx => rfl, fun g1 cur mx => rfl, fun g3 cur mx => rfl,
    fun n g3 cur mx => rfl, rfl, rfl, rfl, rfl⟩

/-- C8: an input that parses to `Command::None` (for example `zzz`)
leaves the state — current line and buffer — unchanged, emits nothing,
and does not terminate the loop. -/
theorem c8_unrecognized_is_noop (st : BedState) (input : String) (stdin : List String)
    (h : parse_command input st.current_line st.content.length = some BedCommand.none) :
    replStep st input stdin = some (st, [], stdin, false) := by
  unfold replStep
  rw [h]
  rfl

theorem c8_unrecognized_is_noop_witness :
    replStep { content := ["a", "b"], current_line := 2 } "zzz" []
      = some ({ content := ["a", "b"], current_line := 2 }, [], [], false) :=
  c8_unrecognized_is_noop { content := ["a", "b"], current_line := 2 } "zzz" []
    (by decide)

/-- C9: at startup the current line is initialized to the line count of
the loaded file, i.e. to the 1-based number of its last line (which
exists, the file being non-empty) — the cursor starts at end-of-file,
not at line 1. -/
theorem c9_initial_cursor_at_eof (file : String) (h : file ≠ "") :
    (initState file).current_line = (initState file).content.length ∧
    1 ≤ (initState file).content.length := by
  refine ⟨rfl, ?_⟩
  have hd : file.data ≠ [] := fun hnil => h (String.ext (hnil.trans rfl))
  have hs : splitLines file.data ≠ [] := by
    cases hfd : file.data with
    | nil => exact absurd hfd hd
    | cons c rest =>
      simp only [splitLines]
      exact splitLinesAux_ne_nil _ _
  show 1 ≤ ((splitLines file.data).map String.mk).length
  rw [List.length_map]
  exact List.length_pos.mpr hs

theorem c9_initial_cursor_at_eof_witness :
    (initState "a\nb\nc").current_line = (initState "a\nb\nc").content.length ∧
    1 ≤ (initState "a\nb\nc").content.length :=
  c9_initial_cursor_at_eof "a\nb\nc" (by decide)

theorem printLoop_spec (content : List String) :
    ∀ (n i : Nat), i + n ≤ content.length →
      ∃ out, printLoop content i n = some out ∧ out.length = n ∧
        ∀ k, k < n → out[k]? = content[i + k]? := by
  intro n
  induction n with
  | zero =>
    intro i _
    exact ⟨[], rfl, rfl, fun k hk => absurd hk (Nat.not_lt_zero k)⟩
  | succ m ih =>
    intro i hle
    have hi : i < content.length := by omega
    have hline : content[i]? = some content[i] := List.getElem?_eq_getElem hi
    obtain ⟨rest, hrest, hlen, hidx⟩ := ih (i + 1) (by omega)
    refine ⟨content[i] :: rest, ?_, by simp [hlen], ?_⟩
    · simp [printLoop, hline, hrest]
    · intro k hk
      cases k with
      | zero => rw [List.getElem?_cons_zero, Nat.add_zero, hline]
      | succ k2 =>
        have h2 := hidx k2 (by omega)
        have h3 : i + 1 + k2 = i + (k2 + 1) := by omega
        rw [List.getElem?_cons_succ, h2, h3]

/-- C5: for a valid range, Print emits exactly `end - start + 1` lines,
in buffer order, the k-th emitted line being the buffer's stored line
`start - 1 + k` (0-based) verbatim — no line-number gutter. -/
theorem c5_print_emits_range (content : List String) (r : Range)
    (h1 : 1 ≤ r.start) (h2 : r.start ≤ r.stop) (h3 : r.stop ≤ content.length) :
    ∃ out, printRange content r = some out ∧
      out.length = r.stop - r.start + 1 ∧
      ∀ k, k < r.stop - r.start + 1 → out[k]? = content[r.start - 1 + k]? := by
  obtain ⟨out, hout, hlen, hidx⟩ :=
    printLoop_spec content (r.stop - (r.start - 1)) (r.start - 1) (by omega)
  refine ⟨out, ?_, by rw [hlen]; omega, ?_⟩
  · unfold printRange
    rw [if_neg (by omega : ¬ r.start = 0), hout]
  · intro k hk
    exact hidx k (by omega)

theorem c5_print_emits_range_witness :
    ∃ out, printRange ["a", "b", "c"] { start := 2, stop := 3 } = some out ∧
      out.length = 3 - 2 + 1 ∧
      ∀ k, k < 3 - 2 + 1 →
        out[k]? = (["a", "b", "c"] : List String)[2 - 1 + k]? :=
  c5_print_emits_range ["a", "b", "c"] { start := 2, stop := 3 }
    (by decide) (by decide) (by decide)

theorem nprintLoop_spec (content : List String) (width : Nat) :
    ∀ (n i : Nat), i + n ≤ content.length →
      ∃ out, nprintLoop content width i n = some out ∧ out.length = n ∧
        ∀ k, k < n → out[k]? = (content[i + k]?).map
          (fun l => padNum (i + k + 1) width ++ " │ " ++ l) := by
  intro n
  induction n with
  | zero =>
    intro i _
    exact ⟨[], rfl, rfl, fun k hk => absurd hk (Nat.not_lt_zero k)⟩
  | succ m ih =>
    intro i hle
    have hi : i < content.length := by omega
    have hline : content[i]? = some content[i] := List.getElem?_eq_getElem hi
    obtain ⟨rest, hrest, hlen, hidx⟩ := ih (i + 1) (by omega)
    refine ⟨(padNum (i + 1) width ++ " │ " ++ content[i]) :: rest, ?_,
      by simp [hlen], ?_⟩
    · simp [nprintLoop, hline, hrest]
    · intro k hk
      cases k with
      | zero => simp [hline]
      | succ k2 =>
        have h2 := hidx k2 (by omega)
        have h3 : i + 1 + k2 = i + (k2 + 1) := by omega
        rw [List.getElem?_cons_succ, h2, h3]

/-- C7: for a valid range, NPrint leaves the state (hence the current
line) unchanged and emits one line per addressed buffer line, each
prefixed by its 1-based number rendered right-aligned in a field as wide
as the decimal digit count of the line count at this invocation,
followed by the separator `" │ "`. -/
theorem c7_nprint_gutter (st : BedState) (r : Range) (stdin : List String)
    (h1 : 1 ≤ r.start) (h2 : r.start ≤ r.stop) (h3 : r.stop ≤ st.content.length) :
    ∃ out, execCommand st (BedCommand.nprint r) stdin = some (st, out, stdin, false) ∧
      out.length = r.stop - r.start + 1 ∧
      ∀ k, k < r.stop - r.start + 1 →
        out[k]? = (st.content[r.start - 1 + k]?).map
          (fun l => padNum (r.start + k) (digitWidth st.content.length) ++ " │ " ++ l) := by
  obtain ⟨out, hout, hlen, hidx⟩ :=
    nprintLoop_spec st.content (digitWidth st.content.length)
      (r.stop - (r.start - 1)) (r.start - 1) (by omega)
  refine ⟨out, ?_, by rw [hlen]; omega, ?_⟩
  · show (nprintRange st.content r).map (fun o => (st, o, stdin, false))
      = some (st, out, stdin, false)
    unfold nprintRange
    rw [if_neg (by omega : ¬ r.start = 0), hout]
    rfl
  · intro k hk
    have he : r.start + k = r.start - 1 + k + 1 := by omega
    rw [he]
    exact hidx k (by omega)

theorem c7_nprint_gutter_witness :
    ∃ out, execCommand { content := ["a", "b"], current_line := 2 }
        (BedCommand.nprint { start := 1, stop := 2 }) []
      = some ({ content := ["a", "b"], current_line := 2 }, out, [], false) ∧
      out.length = 2 - 1 + 1 ∧
      ∀ k, k < 2 - 1 + 1 →
        out[k]? = ((["a", "b"] : List String)[1 - 1 + k]?).map
          (fun l => padNum (1 + k) (digitWidth (["a", "b"] : List String).length)
            ++ " │ " ++ l) :=
  c7_nprint_gutter { content := ["a", "b"], current_line := 2 }
    { start := 1, stop := 2 } [] (by decide) (by decide) (by decide)

/-- C10: the print grammar accepts an explicit address 0 (`0p` and
`0,3p` parse to ranges starting at 0), and executing Print or NPrint on
a range with start 0 evaluates `range.start - 1` on a `usize`, which
underflows (a panic in a debug build, modelled by `Option.none`): the
print loops require `start ≥ 1` as an unstated precondition. -/
theorem c10_zero_start_underflows (cur mx : Nat) (content : List String) (r : Range)
    (h : r.start = 0) :
    parse_command "0p" cur mx = some (BedCommand.print { start := 0, stop := 0 }) ∧
    parse_command "0,3p" cur mx = some (BedCommand.print { start := 0, stop := 3 }) ∧
    printRange content r = Option.none ∧
    nprintRange content r = Option.none := by
  refine ⟨rfl, rfl, ?_, ?_⟩
  · unfold printRange
    rw [h]
    rfl
  · unfold nprintRange
    rw [h]
    rfl

theorem quitMatch_iff (s : List Char) :
    quitMatch s = true ↔ (s = "q".data ∨ s = "quit".data) := by
  simp [quitMatch]

theorem printBranch_isSome (s : List Char) (g1 g3 : Option (List Char))
    (cur mx : Nat) (h1 : (captureNum g1).isSome) (h2 : (captureNum g3).isSome) :
    (printBranch s g1 g3 cur mx).isSome := by
  obtain ⟨a, ha⟩ := Option.isSome_iff_exists.mp h1
  obtain ⟨b, hb⟩ := Option.isSome_iff_exists.mp h2
  unfold printBranch
  rw [ha, hb]
  by_cases hp : s.getLast? = some 'p'
  · simp [hp]
  by_cases hn : s.getLast? = some 'n'
  · simp [hp, hn]
  · simp [hp, hn]

theorem printBranch_ne_quit (s : List Char) (g1 g3 : Option (List Char))
    (cur mx : Nat) : printBranch s g1 g3 cur mx ≠ some BedCommand.quit := by
  unfold printBranch
  cases ha : captureNum g1 with
  | none => simp
  | some a =>
    cases hb : captureNum g3 with
    | none => simp
    | some b =>
      by_cases hp : s.getLast? = some 'p'
      · simp [hp]
      by_cases hn : s.getLast? = some 'n'
      · simp [hp, hn]
      · simp [hp, hn]

theorem parseTrimmed_quit_iff (s : List Char) (cur mx : Nat) :
    parseTrimmed s cur mx = some BedCommand.quit ↔
      (s = "q".data ∨ s = "quit".data) := by
  rw [← quitMatch_iff]
  unfold parseTrimmed
  by_cases hq : quitMatch s
  · simp [hq]
  rw [if_neg hq]
  cases hpc : printCaptures s with
  | some g =>
    obtain ⟨g1, g3⟩ := g
    simp [hq, printBranch_ne_quit s g1 g3 cur mx]
  | none =>
    by_cases hc : changeMatch s
    · simp [hc, hq]
    by_cases hm : moveMatch s
    · cases hpu : parseUsize s <;> simp [hc, hm, hpu, hq]
    · simp [hc, hm, hq]

theorem execCommand_stop_iff (st : BedState) (cmd : BedCommand) (stdin : List String)
    (st2 : BedState) (out rest : List String) (stop : Bool)
    (h : execCommand st cmd stdin = some (st2, out, rest, stop)) :
    (stop = true ↔ cmd = BedCommand.quit) := by
  cases cmd with
  | quit => simp_all [execCommand]
  | none => simp_all [execCommand]
  | change => simp_all [execCommand]
  | move line => simp_all [execCommand]
  | print r =>
    cases hpr : printRange st.content r with
    | none => simp [execCommand, hpr] at h
    | some o => simp [execCommand, hpr] at h; simp_all
  | nprint r =>
    cases hpr : nprintRange st.content r with
    | none => simp [execCommand, hpr] at h
    | some o => simp [execCommand, hpr] at h; simp_all

/-- C6 (amended): the parser returns `Quit` exactly for inputs that trim
to `q` or `quit`, and a REPL step that completes normally signals loop
termination (`break`) exactly on those inputs.  Other inputs never break
the loop gracefully — but not every one leaves the loop running: a
malformed input can panic and abort the whole process instead (see the
counterexample with an overflowing numeral). -/
theorem c6_quit_only (input : String) (cur mx : Nat) (st : BedState)
    (stdin : List String) :
    (parse_command input cur mx = some BedCommand.quit ↔
      (rustTrim input.data = "q".data ∨ rustTrim input.data = "quit".data)) ∧
    (∀ (st2 : BedState) (out rest : List String) (stop : Bool),
      replStep st input stdin = some (st2, out, rest, stop) →
      (stop = true ↔
        (rustTrim input.data = "q".data ∨ rustTrim input.data = "quit".data))) := by
  constructor
  · exact parseTrimmed_quit_iff (rustTrim input.data) cur mx
  · intro st2 out rest stop h
    unfold replStep at h
    cases hp : parse_command input st.current_line st.content.length with
    | none => rw [hp] at h; cases h
    | some cmd =>
      rw [hp] at h
      have hb : execCommand st cmd stdin = some (st2, out, rest, stop) := h
      rw [execCommand_stop_iff st cmd stdin st2 out rest stop hb]
      constructor
      · intro hc
        subst hc
        exact (parseTrimmed_quit_iff (rustTrim input.data)
          st.current_line st.content.length).mp hp
      · intro hd
        have hq := (parseTrimmed_quit_iff (rustTrim input.data)
          st.current_line st.content.length).mpr hd
        exact Option.some.inj (hp.symm.trans hq)

theorem c6_quit_only_witness :
    parse_command "q" 1 1 = some BedCommand.quit ∧
    parse_command "zzz" 1 1 ≠ some BedCommand.quit :=
  ⟨(c6_quit_only "q" 1 1 { content := [], current_line := 0 } []).1.mpr
    (Or.inl rfl),
   fun h =>
    (by decide :
      ¬(rustTrim "zzz".data = "q".data ∨ rustTrim "zzz".data = "quit".data))
      ((c6_quit_only "zzz" 1 1 { content := [], current_line := 0 } []).1.mp h)⟩

/-- C6 counterexample: not every non-quit input leaves the loop running.
The input `18446744073709551616` (2^64) is neither `q` nor `quit`, yet
the REPL step on it does not continue the loop: the parse's
`unwrap` panics (`Option.none`), aborting the process. -/
theorem c6_malformed_input_can_kill_loop :
    replStep { content := ["a"], current_line := 1 } "18446744073709551616" []
      = Option.none ∧
    rustTrim "18446744073709551616".data ≠ "q".data ∧
    rustTrim "18446744073709551616".data ≠ "quit".data := by
  refine ⟨rfl, by decide, by decide⟩

/-- C3 counterexample: a numeric literal exceeding `usize` (here 2^64,
as a move command) makes `parse_command` panic (the `unwrap` of the
failed parse) — it does not return normally with `Command::None`. -/
theorem c3_overflow_panics :
    parse_command "18446744073709551616" 1 1 = Option.none ∧
    USIZE_MAX < digitsVal (rustTrim "18446744073709551616".data) := by
  constructor
  · rfl
  · decide

/-- C3 (amended): for every ASCII input whose attempted numeric literals
all fit in `usize`, `parse_command` returns normally, and input matched
by no grammar branch yields `Command::None`; a numeric literal that
overflows `usize` is a panic instead (see the counterexample). -/
theorem c3_no_panic_without_overflow (input : String) (cur mx : Nat)
    (hascii : ∀ c ∈ input.data, c.toNat < 128)
    (hfit : ∀ ds ∈ attemptedNumerals (rustTrim input.data),
      digitsVal ds ≤ USIZE_MAX) :
    (parse_command input cur mx).isSome ∧
    (recognizes (rustTrim input.data) = false →
      parse_command input cur mx = some BedCommand.none) := by
  constructor
  · show (parseTrimmed (rustTrim input.data) cur mx).isSome
    set s := rustTrim input.data with hs
    unfold parseTrimmed
    by_cases hq : quitMatch s
    · rw [if_pos hq]; rfl
    rw [if_neg hq]
    cases hpc : printCaptures s with
    | some g =>
      obtain ⟨g1, g3⟩ := g
      have h1 : (captureNum g1).isSome := by
        cases g1 with
        | none => rfl
        | some ds =>
          have hd : digitsVal ds ≤ USIZE_MAX := by
            apply hfit
            simp [attemptedNumerals, hpc]
          simp [captureNum, parseUsize, hd]
      have h2 : (captureNum g3).isSome := by
        cases g3 with
        | none => rfl
        | some ds =>
          have hd : digitsVal ds ≤ USIZE_MAX := by
            apply hfit
            simp [attemptedNumerals, hpc]
          simp [captureNum, parseUsize, hd]
      exact printBranch_isSome s g1 g3 cur mx h1 h2
    | none =>
      show (if changeMatch s then some BedCommand.change
        else if moveMatch s then
          (parseUsize s).map (fun line => BedCommand.move line)
        else some BedCommand.none).isSome
      by_cases hc : changeMatch s
      · rw [if_pos hc]; rfl
      rw [if_neg hc]
      by_cases hm : moveMatch s
      · rw [if_pos hm]
        have hd : digitsVal s ≤ USIZE_MAX := by
          apply hfit
          simp [attemptedNumerals, hpc, hm]
        simp [parseUsize, hd]
      · rw [if_neg hm]; rfl
  · intro hrec
    simp only [recognizes, Bool.or_eq_false_iff] at hrec
    obtain ⟨⟨⟨hq, hpc⟩, hc⟩, hm⟩ := hrec
    show parseTrimmed (rustTrim input.data) cur mx = some BedCommand.none
    set s := rustTrim input.data with hs
    unfold parseTrimmed
    rw [if_neg (by simp [hq])]
    have hnone : printCaptures s = Option.none :=
      Option.not_isSome_iff_eq_none.mp (by simp [hpc])
    rw [hnone]
    simp [hc, hm]

theorem c3_no_panic_without_overflow_witness :
    (parse_command "3,7p" 4 10).isSome ∧
    (recognizes (rustTrim "3,7p".data) = false →
      parse_command "3,7p" 4 10 = some BedCommand.none) :=
  c3_no_panic_without_overflow "3,7p" 4 10 (by decide) (by decide)

theorem c10_zero_start_underflows_witness :
    parse_command "0p" 1 1 = some (BedCommand.print { start := 0, stop := 0 }) ∧
    parse_command "0,3p" 1 1 = some (BedCommand.print { start := 0, stop := 3 }) ∧
    printRange ["a"] { start := 0, stop := 0 } = Option.none ∧
    nprintRange ["a"] { start := 0, stop := 0 } = Option.none :=
  c10_zero_start_underflows 1 1 ["a"] { start := 0, stop := 0 } rfl

end Bed
